import Mathlib

/-!
Verification development for the security-group checker (`openstack.go`).

The file shallowly embeds the evaluation logic of the checker:
the IP classifier (`isPrivateIP` plus the relevant behavior of Go's
`net.ParseIP` / `net.ParseCIDR` / `net.IPNet.Contains`), the exposure
filter and open-access evaluator (`isFullOpen`), the static allow-rule
matcher (`matchAllowdRule`), tenant resolution (`getProjectNameFromID`),
the policy evaluator (`matchPolicy`) and the orchestration in `Run`.

Machine integers of the source are modelled as `Nat`/`Int`; Go's
`(value, error)` returns are modelled as `Except String _` or as a
pair with an `Option String` error component, mirroring each call site.
-/

/-! ## Go net.IP model

Go's `net.IP` is a byte slice.  `net.ParseIP` returns `nil` on a parse
failure.  We model the values reachable in this program: the `nil` slice,
a 4-byte IPv4 address, and a 16-byte IPv6 address.
-/

/-- Four bytes of an IPv4 address (each intended to be < 256). -/
structure IPv4Bytes where
  b0 : Nat
  b1 : Nat
  b2 : Nat
  b3 : Nat
deriving DecidableEq, Repr

/-- A Go `net.IP` value: `nil` (parse failure), a 4-byte IPv4 address,
or a 16-byte IPv6 address given as its byte list. -/
inductive GoIP where
  | nil : GoIP
  | v4 (a b c d : Nat) : GoIP
  | v6 (bytes : List Nat) : GoIP
deriving DecidableEq, Repr

/-- Go `net.IP.To4`: the 4-byte form of an address, `none` when the
address is `nil` or a non-IPv4-mapped 16-byte address.  A 16-byte
address maps to 4 bytes exactly when it has the IPv4-in-IPv6 shape
(ten zero bytes, then `0xff 0xff`, then the four IPv4 bytes). -/
def goTo4 : GoIP → Option IPv4Bytes
  | .nil => none
  | .v4 a b c d => some ⟨a, b, c, d⟩
  | .v6 bs =>
    match bs with
    | [0, 0, 0, 0, 0, 0, 0, 0, 0, 0, 255, 255, a, b, c, d] => some ⟨a, b, c, d⟩
    | _ => none

/-- Go `net.IP.IsLoopback`: `127.0.0.0/8` for 4-byte forms, else
equality with `::1`. -/
def goIsLoopback (ip : GoIP) : Bool :=
  match goTo4 ip with
  | some b => b.b0 == 127
  | none =>
    match ip with
    | .v6 bs => bs == [0, 0, 0, 0, 0, 0, 0, 0, 0, 0, 0, 0, 0, 0, 0, 1]
    | _ => false

/-- Go `net.IP.IsLinkLocalUnicast`: `169.254.0.0/16` for 4-byte forms,
else `fe80::/10` for 16-byte addresses. -/
def goIsLinkLocalUnicast (ip : GoIP) : Bool :=
  match goTo4 ip with
  | some b => b.b0 == 169 && b.b1 == 254
  | none =>
    match ip with
    | .v6 (b0 :: b1 :: rest) => rest.length == 14 && b0 == 254 && b1 &&& 192 == 128
    | _ => false

/-- Go `net.IP.IsLinkLocalMulticast`: `224.0.0.0/24` for 4-byte forms,
else `ff02::/16` for 16-byte addresses. -/
def goIsLinkLocalMulticast (ip : GoIP) : Bool :=
  match goTo4 ip with
  | some b => b.b0 == 224 && b.b1 == 0 && b.b2 == 0
  | none =>
    match ip with
    | .v6 (b0 :: b1 :: rest) => rest.length == 14 && b0 == 255 && b1 &&& 15 == 2
    | _ => false

/-! ## Parsing (the fragment of Go's parsers this program exercises)

`net.ParseIP` scans the string and parses it as dotted-quad IPv4 on the
first `.`, or as IPv6 on the first `:`.  The checker only classifies
the fixed IPs of ports and the three hard-coded IPv4 CIDR constants;
IPv6 literal strings never occur in the claims, so the model maps a
string whose first separator is `:` to `nil` and leaves the IPv6 text
grammar out of the modelled fragment (IPv6 byte values are still fully
modelled above). -/

/-- All characters are decimal digits. -/
def allDigits (cs : List Char) : Bool :=
  cs.all (fun c => c.isDigit)

/-- Decimal value of a digit string. -/
def digitsVal (cs : List Char) : Nat :=
  cs.foldl (fun v c => v * 10 + (c.toNat - Char.toNat '0')) 0

/-- One dotted-quad field of Go's IPv4 parser: non-empty, all digits,
no leading zero (unless the field is exactly "0"), value at most 255. -/
def parseV4Field (cs : List Char) : Option Nat :=
  match cs with
  | [] => none
  | c :: rest =>
    if !allDigits (c :: rest) then none
    else if c == '0' && rest ≠ [] then none
    else if digitsVal (c :: rest) > 255 then none
    else some (digitsVal (c :: rest))

/-- Split a character list at every occurrence of `.`. -/
def splitOnDot : List Char → List (List Char)
  | [] => [[]]
  | c :: rest =>
    if c == '.' then [] :: splitOnDot rest
    else
      match splitOnDot rest with
      | [] => [[c]]
      | f :: fs => (c :: f) :: fs

/-- Go's dotted-quad IPv4 parse: exactly four valid fields. -/
def parseIPv4Chars (cs : List Char) : Option IPv4Bytes :=
  match splitOnDot cs with
  | [f0, f1, f2, f3] =>
    match parseV4Field f0, parseV4Field f1, parseV4Field f2, parseV4Field f3 with
    | some a, some b, some c, some d => some ⟨a, b, c, d⟩
    | _, _, _, _ => none
  | _ => none

/-- Scan for the first separator, as Go `net.ParseIP` does: a `.` makes
the whole string parse as IPv4, a `:` switches to the IPv6 grammar
(outside the modelled fragment, mapped to `nil`); no separator at all
is a parse failure (`nil`). -/
def goParseIPFrom (full : List Char) : List Char → GoIP
  | [] => .nil
  | c :: rest =>
    if c == '.' then
      match parseIPv4Chars full with
      | some b => .v4 b.b0 b.b1 b.b2 b.b3
      | none => .nil
    else if c == ':' then .nil
    else goParseIPFrom full rest

/-- Go `net.ParseIP` on the modelled fragment. -/
def goParseIP (s : String) : GoIP :=
  goParseIPFrom s.data s.data

/-- Split a character list at the first occurrence of `ch`;
`none` when `ch` does not occur. -/
def splitFirst (ch : Char) : List Char → Option (List Char × List Char)
  | [] => none
  | c :: rest =>
    if c == ch then some ([], rest)
    else
      match splitFirst ch rest with
      | none => none
      | some (l, r) => some (c :: l, r)

/-- Go's `dtoi` consuming the whole string (as `net.ParseCIDR` requires
for the prefix length): non-empty and all digits. -/
def parseDecAll (cs : List Char) : Option Nat :=
  match cs with
  | [] => none
  | _ => if allDigits cs then some (digitsVal cs) else none

/-- Byte `i` of Go's `net.CIDRMask ones 32`. -/
def maskByte (ones i : Nat) : Nat :=
  if 8 * (i + 1) ≤ ones then 255
  else if ones ≤ 8 * i then 0
  else 256 - 2 ^ (8 * (i + 1) - ones)

/-- A Go `*net.IPNet` with a 4-byte network: the masked network bytes
and the mask bytes. -/
structure GoIPNet where
  net : IPv4Bytes
  mask : IPv4Bytes
deriving DecidableEq, Repr

/-- Go `net.ParseCIDR` on the IPv4 fragment this program uses: split at
the first `/`, parse the address as dotted-quad IPv4 and the prefix
length as a full decimal number of at most 32; the stored network is
the address masked with `CIDRMask`. -/
def goParseCIDR (s : String) : Option GoIPNet :=
  match splitFirst '/' s.data with
  | none => none
  | some (addr, maskStr) =>
    match parseIPv4Chars addr, parseDecAll maskStr with
    | some ip, some n =>
      if n ≤ 32 then
        some ⟨⟨ip.b0 &&& maskByte n 0, ip.b1 &&& maskByte n 1,
               ip.b2 &&& maskByte n 2, ip.b3 &&& maskByte n 3⟩,
              ⟨maskByte n 0, maskByte n 1, maskByte n 2, maskByte n 3⟩⟩
      else none
    | _, _ => none

/-- Go `net.IPNet.Contains` for a 4-byte network: normalize the address
with `To4` (length mismatch, including the `nil` address, is `false`)
and compare each masked byte with the network byte. -/
def ipnetContains (nw : GoIPNet) (ip : GoIP) : Bool :=
  match goTo4 ip with
  | none => false
  | some b =>
    b.b0 &&& nw.mask.b0 == nw.net.b0 && b.b1 &&& nw.mask.b1 == nw.net.b1 &&
    b.b2 &&& nw.mask.b2 == nw.net.b2 && b.b3 &&& nw.mask.b3 == nw.net.b3

/-! ## isPrivateIP (openstack.go lines 515-542) -/

/-- The three hard-coded private ranges of `isPrivateIP`. -/
def privateCIDRList : List String :=
  ["10.0.0.0/8", "172.16.0.0/12", "192.168.0.0/16"]

/-- The first loop of `isPrivateIP`: parse each CIDR constant, stopping
with the error at the first failure (in which case Go returns
`(true, err)`). -/
def buildBlocks : List String → Except String (List GoIPNet)
  | [] => .ok []
  | s :: rest =>
    match goParseCIDR s with
    | none => .error ("invalid CIDR address: " ++ s)
    | some b =>
      match buildBlocks rest with
      | .error e => .error e
      | .ok bs => .ok (b :: bs)

/-- The second loop of `isPrivateIP`: return `true` at the first block
containing the address. -/
def anyBlockContains : List GoIPNet → GoIP → Bool
  | [], _ => false
  | b :: rest, ip => if ipnetContains b ip then true else anyBlockContains rest ip

/-- `isPrivateIP` from openstack.go: loopback / link-local addresses are
private; otherwise build the three private blocks (a parse failure
would return `(true, err)`) and test membership. -/
def isPrivateIP (ip : GoIP) : Bool × Option String :=
  if goIsLoopback ip || goIsLinkLocalUnicast ip || goIsLinkLocalMulticast ip then
    (true, none)
  else
    match buildBlocks privateCIDRList with
    | .error e => (true, some e)
    | .ok blocks => (anyBlockContains blocks ip, none)

/-! ### Basic facts about the classifier -/

deriving instance DecidableEq for Except

/-- The three CIDR constants all parse, to the expected blocks. -/
theorem buildBlocks_eq :
    buildBlocks privateCIDRList =
      .ok [⟨⟨10, 0, 0, 0⟩, ⟨255, 0, 0, 0⟩⟩,
           ⟨⟨172, 16, 0, 0⟩, ⟨255, 240, 0, 0⟩⟩,
           ⟨⟨192, 168, 0, 0⟩, ⟨255, 255, 0, 0⟩⟩] := by
  decide

/-- `isPrivateIP` never returns an error: its error branch (a CIDR parse
failure of the three constants) is unreachable. -/
theorem isPrivateIP_snd (ip : GoIP) : (isPrivateIP ip).2 = none := by
  unfold isPrivateIP
  split
  · rfl
  · rw [buildBlocks_eq]

/-- Closed form of `isPrivateIP`'s verdict. -/
theorem isPrivateIP_eq (ip : GoIP) :
    isPrivateIP ip =
      (if goIsLoopback ip || goIsLinkLocalUnicast ip || goIsLinkLocalMulticast ip then
        true
      else
        anyBlockContains
          [⟨⟨10, 0, 0, 0⟩, ⟨255, 0, 0, 0⟩⟩,
           ⟨⟨172, 16, 0, 0⟩, ⟨255, 240, 0, 0⟩⟩,
           ⟨⟨192, 168, 0, 0⟩, ⟨255, 255, 0, 0⟩⟩] ip, none) := by
  unfold isPrivateIP
  split
  · simp
  · rw [buildBlocks_eq]

/-! ## Inventory data model

Only the fields the checker reads are modelled.  `RemoteIPPrefix` of a
security-group rule is modelled as the field `remoteIP` (nullable string
fields are `""` when absent, as in gophercloud's structs). -/

/-- One fixed IP of a port (`ports.IP`); the checker reads `IPAddress`. -/
structure FixedIP where
  ipAddress : String
deriving DecidableEq, Repr

/-- A Neutron port: id, fixed IPs, attached security-group ids. -/
structure Port where
  id : String
  fixedIPs : List FixedIP
  securityGroups : List String
deriving DecidableEq, Repr

/-- A floating IP; the checker reads the bound `PortID`. -/
structure FloatingIP where
  portID : String
deriving DecidableEq, Repr

/-- A Keystone project (tenant). -/
structure Project where
  id : String
  name : String
deriving DecidableEq, Repr

/-- A security-group rule (`rules.SecGroupRule`).  `remoteIP` models the
source field `RemoteIPPrefix`. -/
structure SGRule where
  direction : String
  protocol : String
  remoteIP : String
  portRangeMin : Int
  portRangeMax : Int
deriving DecidableEq, Repr

/-- A security group (`groups.SecGroup`).  The creation timestamp is
modelled by its two uses: `createdUnixNano` (`CreatedAt.UnixNano()`,
fed to the policy engine) and `createdLocal` (`CreatedAt.Local()`
rendered as a string, shown in policy findings). -/
structure SecGroup where
  id : String
  name : String
  tenantID : String
  rules : List SGRule
  createdUnixNano : Int
  createdLocal : String
deriving DecidableEq, Repr

/-- A configured static allow rule (`Rule` of the checker's config):
tenant name, resolved tenant id, security-group name, and the port
entries (literal numbers or `min-max` expressions). -/
structure CfgRule where
  tenant : String
  tenantID : String
  sg : String
  port : List String
deriving DecidableEq, Repr

/-- A Slack attachment field (`slack.AttachmentField`): the findings'
display unit. -/
structure AttachmentField where
  title : String
  value : String
  short : Bool := false
deriving DecidableEq, Repr

/-- A Slack attachment (`slack.Attachment`): one finding. -/
structure Attachment where
  color : String
  fields : List AttachmentField
deriving DecidableEq, Repr

/-! ## Small helpers of openstack.go -/

/-- `contain` (openstack.go lines 178-185): membership of a string in a
string slice. -/
def contain (s : List String) (e : String) : Bool :=
  match s with
  | [] => false
  | a :: rest => if a == e then true else contain rest e

/-- `contains` (openstack.go lines 255-262): identical membership test
used by the allow-rule matcher. -/
def contains (slice : List String) (item : String) : Bool :=
  match slice with
  | [] => false
  | a :: rest => if a == item then true else contains rest item

/-- `strconv.Itoa` on Go ints. -/
def goItoa (n : Int) : String :=
  toString n

/-- `getProjectNameFromID` (openstack.go lines 226-233): linear search
by exact id; an error when no project matches. -/
def getProjectNameFromID (id : String) : List Project → Except String String
  | [] => .error ("Not found project: " ++ id)
  | p :: ps => if p.id == id then .ok p.name else getProjectNameFromID id ps

/-! ## The allow-rule matcher (openstack.go lines 235-253)

`matchAllowdRule` tests each port entry against the regular expression
`(\d*)-(\d*)`.  Go's RE2 uses leftmost-first matching and `\d*` is
greedy, so on any string containing `-` the first match is anchored at
the start of the maximal digit run preceding the first `-`: capture
group 1 is the digit run immediately before the first `-` and capture
group 2 is the digit run immediately after it, either possibly empty.
`MatchString` holds exactly when the string contains a `-`. -/

/-- The longest all-digit head of a character list (`\d*`, greedy). -/
def leadingDigits : List Char → List Char
  | [] => []
  | c :: rest => if c.isDigit then c :: leadingDigits rest else []

/-- Capture groups 1 and 2 of the first match of `(\d*)-(\d*)`:
the digit runs around the first `-`; `none` when the pattern does not
match (no `-` in the string). -/
def rangeSubmatch (s : String) : Option (String × String) :=
  match splitFirst '-' s.data with
  | none => none
  | some (l, r) =>
    some (String.mk ((leadingDigits l.reverse).reverse), String.mk (leadingDigits r))

/-- One port entry, tested as a range expression: the regular expression
matches and both capture groups equal the rule's exact bounds. -/
def portRangeEntryMatch (p : String) (r : SGRule) : Bool :=
  match rangeSubmatch p with
  | some g => g.1 == goItoa r.portRangeMin && g.2 == goItoa r.portRangeMax
  | none => false

/-- The inner port loop of `matchAllowdRule`: return `true` at the first
entry whose range expression matches with exact bounds. -/
def rangeLoop (ps : List String) (r : SGRule) : Bool :=
  match ps with
  | [] => false
  | p :: rest => if portRangeEntryMatch p r then true else rangeLoop rest r

/-- `matchAllowdRule` (openstack.go lines 235-253): for each configured
rule with matching `(tenantID, securityGroupName)`, accept when a port
entry is a `min-max` expression with exactly the rule's bounds, or when
both bounds appear individually as literal entries. -/
def matchAllowdRule (ars : List CfgRule) (sg : SecGroup) (r : SGRule) : Bool :=
  match ars with
  | [] => false
  | ar :: rest =>
    if ar.tenantID == sg.tenantID && ar.sg == sg.name then
      if rangeLoop ar.port r then true
      else if contains ar.port (goItoa r.portRangeMin) && contains ar.port (goItoa r.portRangeMax) then
        true
      else matchAllowdRule rest sg r
    else matchAllowdRule rest sg r

/-! ## The exposure filter inside isFullOpen (openstack.go lines 385-419) -/

/-- The fixed-IP loop: a port is notification-relevant when one of its
fixed IPs is not private; an `isPrivateIP` error propagates
(`return false, err` in the source). -/
def fixedIPsPublic : List FixedIP → Except String Bool
  | [] => .ok false
  | ip :: rest =>
    match isPrivateIP (goParseIP ip.ipAddress) with
    | (_, some err) => .error err
    | (isPriv, none) => if !isPriv then .ok true else fixedIPsPublic rest

/-- The security-group-id loop of one port: on an id equal to the
group's id, first the floating-IP scan (`break IGNOREPORT` on a bound
floating IP), then the fixed-IP scan. -/
def sgIdsScan (sgId : String) (port : Port) (fips : List FloatingIP) : List String → Except String Bool
  | [] => .ok false
  | sgid :: rest =>
    if sgid == sgId then
      if fips.any (fun fip => fip.portID == port.id) then .ok true
      else
        match fixedIPsPublic port.fixedIPs with
        | .error e => .error e
        | .ok pub => if pub then .ok true else sgIdsScan sgId port fips rest
    else sgIdsScan sgId port fips rest

/-- The port loop of `isFullOpen`: `.ok true` exactly when some
`break IGNOREPORT` fires (the group is exposed, `ignorePort = false`). -/
def portsScan (sgId : String) (fips : List FloatingIP) : List Port → Except String Bool
  | [] => .ok false
  | port :: rest =>
    match sgIdsScan sgId port fips port.securityGroups with
    | .error e => .error e
    | .ok found => if found then .ok true else portsScan sgId fips rest

/-! ## The open-access evaluator (openstack.go lines 421-455) -/

/-- The tenant label of an open-access finding: the resolved project
name, or the raw tenant id when resolution misses (the error is
replaced by the fallback, not propagated). -/
def resolveLabelOpen (projects : List Project) (sg : SecGroup) : String :=
  match getProjectNameFromID sg.tenantID projects with
  | .ok n => n
  | .error _ => sg.tenantID

/-- The open-access finding appended for one violating rule. -/
def openAccessAttachment (projects : List Project) (sg : SecGroup) (r : SGRule) : Attachment :=
  { color := "#ff6347",
    fields := [
      { title := "Tenant", value := resolveLabelOpen projects sg },
      { title := "ID", value := sg.id },
      { title := "Name", value := sg.name },
      { title := "PortRange", value := goItoa r.portRangeMin ++ "-" ++ goItoa r.portRangeMax }] }

/-- The rule loop of `isFullOpen`, threading the `isFullOpen` flag and
the `checker.Attachments` accumulator: a rule with remote prefix
`0.0.0.0/0`, protocol `tcp`, direction `ingress` that no static allow
rule matches is skipped when the group id is in the dynamic allow list
(`continue`), and otherwise sets the flag and appends one finding. -/
def isFullOpenRules (cfg : List CfgRule) (projects : List Project) (allowed : List String)
    (sg : SecGroup) : List SGRule → Bool → List Attachment → Bool × List Attachment
  | [], flag, acc => (flag, acc)
  | r :: rest, flag, acc =>
    if r.remoteIP == "0.0.0.0/0" && r.protocol == "tcp" && r.direction == "ingress" then
      if !matchAllowdRule cfg sg r then
        if contain allowed sg.id then
          isFullOpenRules cfg projects allowed sg rest flag acc
        else
          isFullOpenRules cfg projects allowed sg rest true
            (acc ++ [openAccessAttachment projects sg r])
      else isFullOpenRules cfg projects allowed sg rest flag acc
    else isFullOpenRules cfg projects allowed sg rest flag acc

/-- `isFullOpen` (openstack.go lines 385-455): run the exposure scan;
a non-exposed group returns `(false, unchanged accumulator)` with no
findings; an exposed group runs the rule loop. -/
def isFullOpen (cfg : List CfgRule) (projects : List Project) (sg : SecGroup)
    (ports : List Port) (fips : List FloatingIP) (allowed : List String)
    (acc : List Attachment) : Except String (Bool × List Attachment) :=
  match portsScan sg.id fips ports with
  | .error e => .error e
  | .ok exposed =>
    if !exposed then .ok (false, acc)
    else .ok (isFullOpenRules cfg projects allowed sg sg.rules false acc)

/-- The security-group loop of `Run` (openstack.go lines 103-111):
`existNoguardSG` accumulates the per-group booleans; a failure of
`isFullOpen` aborts the pass. -/
def openAccessPass (cfg : List CfgRule) (projects : List Project) (ports : List Port)
    (fips : List FloatingIP) (allowed : List String) :
    List SecGroup → Bool → List Attachment → Except String (Bool × List Attachment)
  | [], exist, acc => .ok (exist, acc)
  | sg :: rest, exist, acc =>
    match isFullOpen cfg projects sg ports fips allowed acc with
    | .error e => .error e
    | .ok r => openAccessPass cfg projects ports fips allowed rest (exist || r.1) r.2

/-! ## The policy evaluator (openstack.go lines 131-174 and 457-513)

The external rego engine is modelled as an opaque total predicate on
the security group (the engine receives exactly the group's fields plus
`CreatedAt.UnixNano()`, so its verdict is a function of the group). -/

/-- The tenant label of a policy finding: on a resolution miss the
source discards the error and keeps the zero-value name, so the label
degrades to the empty string (not to the raw id). -/
def resolveLabelPolicy (projects : List Project) (sg : SecGroup) : String :=
  match getProjectNameFromID sg.tenantID projects with
  | .ok n => n
  | .error _ => ""

/-- The newline-joined per-rule dump of a policy finding. -/
def rulesDump : List SGRule → String
  | [] => ""
  | r :: rest =>
    r.direction ++ ", IP Range: " ++ r.remoteIP ++ ", Port Range: " ++
      goItoa r.portRangeMin ++ "-" ++ goItoa r.portRangeMax ++ "\n" ++ rulesDump rest

/-- The policy-match finding appended for one matching group. -/
def policyAttachment (projects : List Project) (sg : SecGroup) : Attachment :=
  { color := "#ff6347",
    fields := [
      { title := "Name", value := sg.name },
      { title := "Tenant", value := resolveLabelPolicy projects sg, short := true },
      { title := "ID", value := sg.id, short := true },
      { title := "Created", value := sg.createdLocal },
      { title := "Rules", value := rulesDump sg.rules }] }

/-- `matchPolicy` (openstack.go lines 457-513) under a total engine:
evaluate the predicate once; on `true` append one policy finding. -/
def matchPolicy (pred : SecGroup → Bool) (projects : List Project) (sg : SecGroup)
    (acc : List Attachment) : Bool × List Attachment :=
  if pred sg then (true, acc ++ [policyAttachment projects sg]) else (false, acc)

/-- The group loop of one policy in `Run` (openstack.go lines 148-161):
skip groups in the dynamic allow list (`continue`, no evaluation);
otherwise call `matchPolicy` and accumulate its flag.  The last
component logs, in order, the ids of the groups for which the engine is
queried (one entry per `matchPolicy` call). -/
def policyScan (pred : SecGroup → Bool) (projects : List Project) (allowed : List String) :
    List SecGroup → Bool → List Attachment → List String → Bool × List Attachment × List String
  | [], flag, acc, log => (flag, acc, log)
  | sg :: rest, flag, acc, log =>
    if contain allowed sg.id then policyScan pred projects allowed rest flag acc log
    else
      let m := matchPolicy pred projects sg acc
      policyScan pred projects allowed rest (flag || m.1) m.2 (log ++ [sg.id])

/-- The policy loop of `Run` (openstack.go lines 131-174): one
`policyScan` per configured policy, threading `checker.Attachments`
through successive policies (never cleared between them); the batch
posted for a policy (outside dry-run, when some group matched) is the
whole accumulator at that point.  Components: the per-policy posted
batches, the final accumulator, and the per-policy query logs. -/
def runPolicies (projects : List Project) (allowed : List String) (groups : List SecGroup)
    (dryRun : Bool) :
    List (SecGroup → Bool) → List Attachment →
      List (Option (List Attachment)) × List Attachment × List (List String)
  | [], acc => ([], acc, [])
  | pred :: rest, acc =>
    let r1 := policyScan pred projects allowed groups false acc []
    let batch := if r1.1 && !dryRun then some r1.2.1 else none
    let r2 := runPolicies projects allowed groups dryRun rest r1.2.1
    (batch :: r2.1, r2.2.1, r1.2.2 :: r2.2.2)

/-- The observable outcome of one `Run` after the inventory fetch: the
open-access batch posted (if any), the per-policy batches posted, the
final `checker.Attachments`, and the per-policy engine-query logs. -/
structure RunOutcome where
  openBatch : Option (List Attachment)
  policyBatches : List (Option (List Attachment))
  finalAttachments : List Attachment
  policyQueryLogs : List (List String)
deriving DecidableEq, Repr

/-- The evaluation part of `Run` (openstack.go lines 101-175): the
open-access pass over all groups from the initial `checker.Attachments`;
its batch is posted when `existNoguardSG` holds outside dry-run; then
`checker.Attachments` is reset to the empty slice exactly once (line
127) before the policy loop runs from that empty accumulator. -/
def runModel (cfg : List CfgRule) (preds : List (SecGroup → Bool)) (projects : List Project)
    (ports : List Port) (fips : List FloatingIP) (allowed : List String)
    (groups : List SecGroup) (dryRun : Bool) (initAcc : List Attachment) :
    Except String RunOutcome :=
  match openAccessPass cfg projects ports fips allowed groups false initAcc with
  | .error e => .error e
  | .ok r =>
    let openBatch := if r.1 && !dryRun then some r.2 else none
    let pr := runPolicies projects allowed groups dryRun preds []
    .ok { openBatch := openBatch, policyBatches := pr.1,
          finalAttachments := pr.2.1, policyQueryLogs := pr.2.2 }

/-! ## Characterizations of the loops -/

/-- The fixed-IP loop never errors and reports whether some fixed IP is
classified as not private. -/
theorem fixedIPsPublic_eq : ∀ l : List FixedIP,
    fixedIPsPublic l = .ok (l.any fun ip => !(isPrivateIP (goParseIP ip.ipAddress)).1) := by
  intro l
  induction l with
  | nil => rfl
  | cons ip rest ih =>
    have hsnd := isPrivateIP_snd (goParseIP ip.ipAddress)
    unfold fixedIPsPublic
    cases hp : isPrivateIP (goParseIP ip.ipAddress) with
    | mk b e =>
      rw [hp] at hsnd
      simp only at hsnd
      subst hsnd
      cases b with
      | false => simp [hp]
      | true => simp [hp, ih]

/-- The id loop of one port never errors: it reports that the port
carries the group id and either a floating IP is bound to the port or
some fixed IP is not private. -/
theorem sgIdsScan_eq (sgId : String) (port : Port) (fips : List FloatingIP) :
    ∀ l : List String,
      sgIdsScan sgId port fips l =
        .ok (l.any (fun s => s == sgId) &&
          ((fips.any fun f => f.portID == port.id) ||
           port.fixedIPs.any fun ip => !(isPrivateIP (goParseIP ip.ipAddress)).1)) := by
  intro l
  induction l with
  | nil => simp [sgIdsScan]
  | cons sgid rest ih =>
    unfold sgIdsScan
    cases h1 : (sgid == sgId) with
    | false => simp [h1, ih]
    | true =>
      cases h2 : fips.any (fun f => f.portID == port.id) with
      | true => simp [h1, h2]
      | false =>
        rw [fixedIPsPublic_eq]
        cases h3 : port.fixedIPs.any (fun ip => !(isPrivateIP (goParseIP ip.ipAddress)).1) with
        | true => simp [h1, h2, h3]
        | false => simp [h1, h2, h3, ih]

/-- The exposure predicate of the specification: some port carries the
group's id and is reachable via a bound floating IP or a public fixed
IP. -/
def exposedBool (sgId : String) (ports : List Port) (fips : List FloatingIP) : Bool :=
  ports.any fun p =>
    p.securityGroups.any (fun s => s == sgId) &&
    ((fips.any fun f => f.portID == p.id) ||
     p.fixedIPs.any fun ip => !(isPrivateIP (goParseIP ip.ipAddress)).1)

/-- The port loop of `isFullOpen` never errors and computes exactly the
exposure predicate. -/
theorem portsScan_eq (sgId : String) (fips : List FloatingIP) :
    ∀ ports : List Port, portsScan sgId fips ports = .ok (exposedBool sgId ports fips) := by
  intro ports
  induction ports with
  | nil => rfl
  | cons p rest ih =>
    unfold portsScan exposedBool
    rw [sgIdsScan_eq]
    cases hb : (p.securityGroups.any (fun s => s == sgId) &&
        ((fips.any fun f => f.portID == p.id) ||
         p.fixedIPs.any fun ip => !(isPrivateIP (goParseIP ip.ipAddress)).1)) with
    | true => simp [hb]
    | false =>
      simp only [hb, List.any_cons, Bool.false_or]
      exact ih

/-- A rule is an unsuppressed violation: internet-wide tcp ingress, not
covered by a static allow rule and not exempted by the dynamic allow
list. -/
def violatingRule (cfg : List CfgRule) (allowed : List String) (sg : SecGroup) (r : SGRule) : Bool :=
  (r.remoteIP == "0.0.0.0/0" && r.protocol == "tcp" && r.direction == "ingress") &&
  (!matchAllowdRule cfg sg r && !contain allowed sg.id)

/-- The unsuppressed violating rules of a rule list, in order. -/
def violationsOf (cfg : List CfgRule) (allowed : List String) (sg : SecGroup)
    (rules : List SGRule) : List SGRule :=
  rules.filter (violatingRule cfg allowed sg)

/-- The rule loop of `isFullOpen` appends exactly one finding per
unsuppressed violating rule, in rule order, and reports whether there
was one. -/
theorem isFullOpenRules_eq (cfg : List CfgRule) (projects : List Project)
    (allowed : List String) (sg : SecGroup) :
    ∀ (rules : List SGRule) (flag : Bool) (acc : List Attachment),
      isFullOpenRules cfg projects allowed sg rules flag acc =
        (flag || !(violationsOf cfg allowed sg rules).isEmpty,
         acc ++ (violationsOf cfg allowed sg rules).map (openAccessAttachment projects sg)) := by
  intro rules
  induction rules with
  | nil => intro flag acc; simp [isFullOpenRules, violationsOf]
  | cons r rest ih =>
    intro flag acc
    unfold isFullOpenRules violationsOf
    cases h1 : (r.remoteIP == "0.0.0.0/0" && r.protocol == "tcp" && r.direction == "ingress") with
    | false =>
      simp only [h1, Bool.false_eq_true, if_false, List.filter_cons, violatingRule,
        Bool.false_and, ih]
      rfl
    | true =>
      cases h2 : matchAllowdRule cfg sg r with
      | true =>
        simp only [h1, if_true, h2, Bool.not_true, Bool.false_eq_true, if_false,
          List.filter_cons, violatingRule, Bool.true_and, Bool.false_and, ih]
        rfl
      | false =>
        cases h3 : contain allowed sg.id with
        | true =>
          simp only [h1, if_true, h2, Bool.not_false, Bool.true_eq_false, h3,
            List.filter_cons, violatingRule, Bool.true_and, Bool.not_true, Bool.and_false, ih]
          rfl
        | false =>
          simp only [h1, if_true, h2, Bool.not_false, h3, List.filter_cons, violatingRule,
            Bool.true_and, Bool.not_false, Bool.and_true, if_true, ih]
          simp [violationsOf, List.append_assoc]

/-- The flag `isFullOpen` returns for one group. -/
def openSgFlag (cfg : List CfgRule) (allowed : List String) (sg : SecGroup)
    (ports : List Port) (fips : List FloatingIP) : Bool :=
  exposedBool sg.id ports fips && !(violationsOf cfg allowed sg sg.rules).isEmpty

/-- The findings `isFullOpen` appends for one group: none unless the
group is exposed. -/
def openSgDelta (cfg : List CfgRule) (projects : List Project) (allowed : List String)
    (sg : SecGroup) (ports : List Port) (fips : List FloatingIP) : List Attachment :=
  if exposedBool sg.id ports fips then
    (violationsOf cfg allowed sg sg.rules).map (openAccessAttachment projects sg)
  else []

/-- `isFullOpen` never errors; its flag and appended findings are
`openSgFlag` and `openSgDelta`. -/
theorem isFullOpen_char (cfg : List CfgRule) (projects : List Project) (sg : SecGroup)
    (ports : List Port) (fips : List FloatingIP) (allowed : List String)
    (acc : List Attachment) :
    isFullOpen cfg projects sg ports fips allowed acc =
      .ok (openSgFlag cfg allowed sg ports fips,
           acc ++ openSgDelta cfg projects allowed sg ports fips) := by
  unfold isFullOpen openSgFlag openSgDelta
  rw [portsScan_eq]
  cases hE : exposedBool sg.id ports fips with
  | false => simp [hE]
  | true => simp [hE, isFullOpenRules_eq]

/-- The open-access pass never errors: its summary boolean is the
disjunction of the per-group flags and it appends the concatenation of
the per-group findings, in group order. -/
theorem openAccessPass_eq (cfg : List CfgRule) (projects : List Project) (ports : List Port)
    (fips : List FloatingIP) (allowed : List String) :
    ∀ (groups : List SecGroup) (flag : Bool) (acc : List Attachment),
      openAccessPass cfg projects ports fips allowed groups flag acc =
        .ok (flag || groups.any (fun sg => openSgFlag cfg allowed sg ports fips),
             acc ++ (groups.map (fun sg => openSgDelta cfg projects allowed sg ports fips)).flatten) := by
  intro groups
  induction groups with
  | nil => intro flag acc; simp [openAccessPass]
  | cons sg rest ih =>
    intro flag acc
    unfold openAccessPass
    rw [isFullOpen_char]
    simp only [ih, List.any_cons, List.map_cons, List.flatten_cons, Bool.or_assoc,
      List.append_assoc]

/-- The groups not exempted by the dynamic allow list, in order. -/
def nonExempt (allowed : List String) (groups : List SecGroup) : List SecGroup :=
  groups.filter (fun sg => !contain allowed sg.id)

/-- The findings one policy appends: one per non-exempt matching group,
in group order. -/
def policyDelta (pred : SecGroup → Bool) (projects : List Project) (allowed : List String)
    (groups : List SecGroup) : List Attachment :=
  ((nonExempt allowed groups).filter pred).map (policyAttachment projects)

/-- The group loop of one policy: the flag is whether some non-exempt
group matches, the findings are `policyDelta`, and the engine is
queried exactly for the non-exempt groups, once each, in order. -/
theorem policyScan_eq (pred : SecGroup → Bool) (projects : List Project) (allowed : List String) :
    ∀ (groups : List SecGroup) (flag : Bool) (acc : List Attachment) (log : List String),
      policyScan pred projects allowed groups flag acc log =
        (flag || (nonExempt allowed groups).any pred,
         acc ++ policyDelta pred projects allowed groups,
         log ++ (nonExempt allowed groups).map (fun sg => sg.id)) := by
  intro groups
  induction groups with
  | nil => intro flag acc log; simp [policyScan, nonExempt, policyDelta]
  | cons sg rest ih =>
    intro flag acc log
    unfold policyScan
    cases hc : contain allowed sg.id with
    | true => simp [hc, ih, nonExempt, policyDelta, List.filter_cons]
    | false =>
      cases hp : pred sg with
      | false =>
        simp [hc, hp, matchPolicy, ih, nonExempt, policyDelta, List.filter_cons,
          List.append_assoc]
      | true =>
        simp [hc, hp, matchPolicy, ih, nonExempt, policyDelta, List.filter_cons,
          List.append_assoc, Bool.or_assoc]

/-- Every policy's engine-query log is the id list of the non-exempt
groups — the same for each policy, independent of the accumulator. -/
theorem runPolicies_logs (projects : List Project) (allowed : List String)
    (groups : List SecGroup) (dryRun : Bool) :
    ∀ (preds : List (SecGroup → Bool)) (acc : List Attachment),
      (runPolicies projects allowed groups dryRun preds acc).2.2 =
        preds.map (fun _ => (nonExempt allowed groups).map (fun sg => sg.id)) := by
  intro preds
  induction preds with
  | nil => intro acc; rfl
  | cons pred rest ih =>
    intro acc
    unfold runPolicies
    simp [policyScan_eq, ih]

/-- The batch posted for the policy at index `k` (when posted) is the
accumulator extended by the deltas of policies `0..k`: findings of
earlier policies are never cleared between policies. -/
theorem runPolicies_batches (projects : List Project) (allowed : List String)
    (groups : List SecGroup) (dryRun : Bool) :
    ∀ (preds : List (SecGroup → Bool)) (acc : List Attachment) (k : Nat)
      (pred : SecGroup → Bool), preds[k]? = some pred →
      (runPolicies projects allowed groups dryRun preds acc).1[k]? =
        some (if (nonExempt allowed groups).any pred && !dryRun
              then some (acc ++ ((preds.take (k + 1)).map
                     (fun p => policyDelta p projects allowed groups)).flatten)
              else none) := by
  intro preds
  induction preds with
  | nil => intro acc k pred h; simp at h
  | cons p rest ih =>
    intro acc k pred h
    unfold runPolicies
    cases k with
    | zero =>
      simp only [List.getElem?_cons_zero, Option.some.injEq] at h
      subst h
      simp [policyScan_eq, List.take_succ_cons]
    | succ k =>
      simp only [List.getElem?_cons_succ] at h
      simp only [List.getElem?_cons_succ]
      rw [ih _ k pred h]
      simp [policyScan_eq, List.take_succ_cons, List.append_assoc]

/-- `runModel` unfolded: the open-access pass runs from the initial
accumulator; the policy loop runs from the empty accumulator — the
single reset of `checker.Attachments` between the two passes. -/
theorem runModel_eq (cfg : List CfgRule) (preds : List (SecGroup → Bool))
    (projects : List Project) (ports : List Port) (fips : List FloatingIP)
    (allowed : List String) (groups : List SecGroup) (dryRun : Bool)
    (initAcc : List Attachment) :
    runModel cfg preds projects ports fips allowed groups dryRun initAcc =
      (openAccessPass cfg projects ports fips allowed groups false initAcc).map (fun r =>
        { openBatch := if r.1 && !dryRun then some r.2 else none,
          policyBatches := (runPolicies projects allowed groups dryRun preds []).1,
          finalAttachments := (runPolicies projects allowed groups dryRun preds []).2.1,
          policyQueryLogs := (runPolicies projects allowed groups dryRun preds []).2.2 }) := by
  unfold runModel
  cases h : openAccessPass cfg projects ports fips allowed groups false initAcc with
  | error e => rfl
  | ok r => rfl

/-! ## The allow-rule matcher, characterized -/

/-- The port loop returns true exactly when some entry matches as a
range expression. -/
theorem rangeLoop_eq_any (r : SGRule) : ∀ ps : List String,
    rangeLoop ps r = ps.any (fun p => portRangeEntryMatch p r) := by
  intro ps
  induction ps with
  | nil => rfl
  | cons p rest ih =>
    unfold rangeLoop
    cases h : portRangeEntryMatch p r with
    | true => simp [h]
    | false => simp [h, ih]

/-- `contains` is list membership. -/
theorem contains_eq_any (item : String) : ∀ slice : List String,
    contains slice item = slice.any (fun a => a == item) := by
  intro slice
  induction slice with
  | nil => rfl
  | cons a rest ih =>
    unfold contains
    cases h : a == item with
    | true => simp [h]
    | false => simp [h, ih]

/-- `contain` is list membership. -/
theorem contain_eq_any (e : String) : ∀ s : List String,
    contain s e = s.any (fun a => a == e) := by
  intro s
  induction s with
  | nil => rfl
  | cons a rest ih =>
    unfold contain
    cases h : a == e with
    | true => simp [h]
    | false => simp [h, ih]

/-- `matchAllowdRule` holds exactly when some configured entry has the
group's tenant id and name and either a range entry matches with exact
bounds or both bounds appear as literal entries. -/
theorem matchAllowdRule_iff (sg : SecGroup) (r : SGRule) : ∀ ars : List CfgRule,
    matchAllowdRule ars sg r = true ↔
      ∃ ar, ar ∈ ars ∧ ar.tenantID = sg.tenantID ∧ ar.sg = sg.name ∧
        ((∃ p, p ∈ ar.port ∧ portRangeEntryMatch p r = true) ∨
         (contains ar.port (goItoa r.portRangeMin) = true ∧
          contains ar.port (goItoa r.portRangeMax) = true)) := by
  intro ars
  induction ars with
  | nil => simp [matchAllowdRule]
  | cons ar rest ih =>
    unfold matchAllowdRule
    cases hT : (ar.tenantID == sg.tenantID && ar.sg == sg.name) with
    | false =>
      simp only [Bool.false_eq_true, if_false]
      rw [ih]
      have hT' : ¬(ar.tenantID = sg.tenantID ∧ ar.sg = sg.name) := by
        intro hand
        simp [hand.1, hand.2] at hT
      constructor
      · rintro ⟨a, ha, hrest⟩
        exact ⟨a, List.mem_cons_of_mem _ ha, hrest⟩
      · rintro ⟨a, ha, h1, h2, h3⟩
        rcases List.mem_cons.mp ha with rfl | ha'
        · exact absurd ⟨h1, h2⟩ hT'
        · exact ⟨a, ha', h1, h2, h3⟩
    | true =>
      have hTid : ar.tenantID = sg.tenantID := by
        have := (Bool.and_eq_true _ _).mp hT
        exact beq_iff_eq.mp this.1
      have hName : ar.sg = sg.name := by
        have := (Bool.and_eq_true _ _).mp hT
        exact beq_iff_eq.mp this.2
      cases hR : rangeLoop ar.port r with
      | true =>
        simp only [hT, if_true, hR]
        constructor
        · intro _
          refine ⟨ar, List.mem_cons_self _ _, hTid, hName, Or.inl ?_⟩
          rw [rangeLoop_eq_any] at hR
          rcases List.any_eq_true.mp hR with ⟨p, hp, hm⟩
          exact ⟨p, hp, hm⟩
        · intro _; trivial
      | false =>
        cases hC : (contains ar.port (goItoa r.portRangeMin) &&
            contains ar.port (goItoa r.portRangeMax)) with
        | true =>
          simp only [hT, if_true, hR, Bool.false_eq_true, if_false, hC]
          have hC' := (Bool.and_eq_true _ _).mp hC
          constructor
          · intro _
            exact ⟨ar, List.mem_cons_self _ _, hTid, hName, Or.inr ⟨hC'.1, hC'.2⟩⟩
          · intro _; trivial
        | false =>
          simp only [hT, if_true, hR, Bool.false_eq_true, if_false, hC]
          rw [ih]
          constructor
          · rintro ⟨a, ha, hrest⟩
            exact ⟨a, List.mem_cons_of_mem _ ha, hrest⟩
          · rintro ⟨a, ha, h1, h2, h3⟩
            rcases List.mem_cons.mp ha with rfl | ha'
            · rcases h3 with ⟨p, hp, hm⟩ | ⟨hmin, hmax⟩
              · rw [rangeLoop_eq_any] at hR
                have : a.port.any (fun p => portRangeEntryMatch p r) = true :=
                  List.any_eq_true.mpr ⟨p, hp, hm⟩
                rw [this] at hR
                cases hR
              · rw [hmin, hmax] at hC
                cases hC
            · exact ⟨a, ha', h1, h2, h3⟩

/-! ## The regular expression on well-formed range entries -/

/-- Splitting at the first occurrence, when the head part avoids the
separator. -/
theorem splitFirst_append_of_not_mem (ch : Char) : ∀ (l1 l2 : List Char), ch ∉ l1 →
    splitFirst ch (l1 ++ ch :: l2) = some (l1, l2) := by
  intro l1
  induction l1 with
  | nil =>
    intro l2 _
    simp [splitFirst]
  | cons c rest ih =>
    intro l2 h
    have hc : (c == ch) = false := by
      have : c ≠ ch := fun hh => h (by rw [hh]; exact List.mem_cons_self _ _)
      simp [this]
    unfold splitFirst
    simp only [List.cons_append, hc, Bool.false_eq_true, if_false,
      ih l2 (fun hm => h (List.mem_cons_of_mem _ hm))]

/-- `\d*` consumes an all-digit list entirely. -/
theorem leadingDigits_of_all : ∀ l : List Char, (∀ c ∈ l, c.isDigit = true) →
    leadingDigits l = l := by
  intro l
  induction l with
  | nil => intro _; rfl
  | cons c rest ih =>
    intro h
    unfold leadingDigits
    rw [h c (List.mem_cons_self _ _)]
    simp [ih (fun x hx => h x (List.mem_cons_of_mem _ hx))]

/-- On an entry of the shape `digits-digits` the two capture groups are
exactly the two digit strings. -/
theorem rangeSubmatch_wellformed (g1 g2 : List Char)
    (h1 : ∀ c ∈ g1, c.isDigit = true) (h2 : ∀ c ∈ g2, c.isDigit = true) :
    rangeSubmatch (String.mk (g1 ++ '-' :: g2)) = some (String.mk g1, String.mk g2) := by
  unfold rangeSubmatch
  have hnm : '-' ∉ g1 := by
    intro hm
    have := h1 _ hm
    simp at this
  have hdata : (String.mk (g1 ++ '-' :: g2)).data = g1 ++ '-' :: g2 := rfl
  rw [hdata, splitFirst_append_of_not_mem _ _ _ hnm]
  have hg1 : ∀ c ∈ g1.reverse, c.isDigit = true := by
    intro c hc
    exact h1 c (List.mem_reverse.mp hc)
  dsimp only
  rw [leadingDigits_of_all _ hg1, leadingDigits_of_all _ h2, List.reverse_reverse]

/-- On a well-formed `min-max` entry the matcher compares both rendered
bounds for exact string equality. -/
theorem portRangeEntryMatch_wellformed (g1 g2 : List Char) (r : SGRule)
    (h1 : ∀ c ∈ g1, c.isDigit = true) (h2 : ∀ c ∈ g2, c.isDigit = true) :
    portRangeEntryMatch (String.mk (g1 ++ '-' :: g2)) r =
      ((String.mk g1 == goItoa r.portRangeMin) && (String.mk g2 == goItoa r.portRangeMax)) := by
  unfold portRangeEntryMatch
  rw [rangeSubmatch_wellformed g1 g2 h1 h2]

/-! ## Concrete scenario values used by witnesses and counterexamples -/

/-- An internet-wide tcp ingress rule with the given bounds. -/
def ruleOpenTCP (a b : Int) : SGRule :=
  { direction := "ingress", protocol := "tcp", remoteIP := "0.0.0.0/0",
    portRangeMin := a, portRangeMax := b }

/-- A group with one violating rule. -/
def sgWeb : SecGroup :=
  { id := "sg-1", name := "web", tenantID := "t1",
    rules := [ruleOpenTCP 22 22], createdUnixNano := 0, createdLocal := "t" }

/-- A rule-free group. -/
def sgPlain : SecGroup :=
  { id := "sg-2", name := "db", tenantID := "t1",
    rules := [], createdUnixNano := 0, createdLocal := "t" }

/-- A port of sg-1 with a public fixed IP. -/
def portPub : Port :=
  { id := "port-1", fixedIPs := [{ ipAddress := "203.0.113.5" }], securityGroups := ["sg-1"] }

/-- A port of sg-1 whose only fixed IP does not parse. -/
def portBadIP : Port :=
  { id := "port-2", fixedIPs := [{ ipAddress := "not-an-ip" }], securityGroups := ["sg-1"] }

/-- A port attached only to some other group. -/
def portOther : Port :=
  { id := "port-3", fixedIPs := [{ ipAddress := "203.0.113.9" }], securityGroups := ["sg-9"] }

/-- An allow entry with a range expression. -/
def arRange8080 : CfgRule :=
  { tenant := "alpha", tenantID := "t1", sg := "web", port := ["80-80"] }

/-- An allow entry with two literal entries. -/
def arLits80443 : CfgRule :=
  { tenant := "alpha", tenantID := "t1", sg := "web", port := ["80", "443"] }

/-- An always-true policy predicate. -/
def predAll : SecGroup → Bool := fun _ => true

/-- Unsuppressed violations vanish when the group id is dynamically
allowed. -/
theorem violationsOf_nil_of_contain (cfg : List CfgRule) (allowed : List String)
    (sg : SecGroup) (h : contain allowed sg.id = true) :
    ∀ rules : List SGRule, violationsOf cfg allowed sg rules = [] := by
  intro rules
  induction rules with
  | nil => rfl
  | cons r rest ih =>
    unfold violationsOf at ih ⊢
    simp [List.filter_cons, violatingRule, h, ih]

/-! ## Claims -/

/-- C1: for an exposed security group, exactly the rules with remote
prefix "0.0.0.0/0", protocol "tcp" and direction "ingress" are
violation candidates; each produces exactly one open-access finding, in
rule order, unless the static matcher covers it or the group id is in
the dynamic allow list; with the group id in the dynamic allow list no
finding is produced at all (even with no matching static allow rule). -/
theorem open_access_findings_exact (cfg : List CfgRule) (projects : List Project)
    (sg : SecGroup) (ports : List Port) (fips : List FloatingIP) (allowed : List String)
    (acc : List Attachment) :
    (portsScan sg.id fips ports = .ok true →
      isFullOpen cfg projects sg ports fips allowed acc =
        .ok (!(violationsOf cfg allowed sg sg.rules).isEmpty,
             acc ++ (violationsOf cfg allowed sg sg.rules).map (openAccessAttachment projects sg))) ∧
    (violationsOf cfg allowed sg sg.rules =
      sg.rules.filter (fun r =>
        (r.remoteIP == "0.0.0.0/0" && r.protocol == "tcp" && r.direction == "ingress") &&
        (!matchAllowdRule cfg sg r && !contain allowed sg.id))) ∧
    (contain allowed sg.id = true →
      isFullOpen cfg projects sg ports fips allowed acc = .ok (false, acc)) := by
  refine ⟨?_, rfl, ?_⟩
  · intro hexp
    rw [portsScan_eq] at hexp
    have hE : exposedBool sg.id ports fips = true := by
      cases h : exposedBool sg.id ports fips with
      | true => rfl
      | false => rw [h] at hexp; cases hexp
    rw [isFullOpen_char]
    unfold openSgFlag openSgDelta
    rw [hE]
    simp
  · intro hc
    rw [isFullOpen_char]
    unfold openSgFlag openSgDelta
    rw [violationsOf_nil_of_contain cfg allowed sg hc]
    cases hE : exposedBool sg.id ports fips <;> simp

/-- C1 witness: a concrete exposed group with one violating rule, with
and without its id on the dynamic allow list. -/
theorem open_access_findings_exact_witness :
    isFullOpen [] [] sgWeb [portPub] [] [] [] =
      .ok (!(violationsOf [] [] sgWeb sgWeb.rules).isEmpty,
           [] ++ (violationsOf [] [] sgWeb sgWeb.rules).map (openAccessAttachment [] sgWeb)) ∧
    isFullOpen [] [] sgWeb [portPub] [] ["sg-1"] [] = .ok (false, []) :=
  ⟨(open_access_findings_exact [] [] sgWeb [portPub] [] [] []).1 (by decide),
   (open_access_findings_exact [] [] sgWeb [portPub] [] ["sg-1"] []).2.2 (by decide)⟩

/-- C2: the static matcher accepts exactly via an entry with the
group's tenant id and name whose port set has a range expression whose
two endpoints equal the rule's bounds, or contains both bounds as
separate literal entries; on a well-formed `digits-digits` entry the
endpoint comparison is exact string equality with both rendered bounds;
ports ["80-80"] allow an 80-80 rule but not an 80-443 rule, and ports
["80","443"] allow an 80-443 rule but not an 80-81 rule. -/
theorem allow_rule_exact_bounds :
    (∀ (ars : List CfgRule) (sg : SecGroup) (r : SGRule),
      matchAllowdRule ars sg r = true ↔
        ∃ ar, ar ∈ ars ∧ ar.tenantID = sg.tenantID ∧ ar.sg = sg.name ∧
          ((∃ p, p ∈ ar.port ∧ portRangeEntryMatch p r = true) ∨
           (contains ar.port (goItoa r.portRangeMin) = true ∧
            contains ar.port (goItoa r.portRangeMax) = true))) ∧
    (∀ (g1 g2 : List Char) (r : SGRule),
      (∀ c ∈ g1, c.isDigit = true) → (∀ c ∈ g2, c.isDigit = true) →
      portRangeEntryMatch (String.mk (g1 ++ '-' :: g2)) r =
        ((String.mk g1 == goItoa r.portRangeMin) && (String.mk g2 == goItoa r.portRangeMax))) ∧
    matchAllowdRule [arRange8080] sgWeb (ruleOpenTCP 80 80) = true ∧
    matchAllowdRule [arRange8080] sgWeb (ruleOpenTCP 80 443) = false ∧
    matchAllowdRule [arLits80443] sgWeb (ruleOpenTCP 80 443) = true ∧
    matchAllowdRule [arLits80443] sgWeb (ruleOpenTCP 80 81) = false :=
  ⟨fun ars sg r => matchAllowdRule_iff sg r ars,
   portRangeEntryMatch_wellformed,
   by decide, by decide, by decide, by decide⟩

/-- C2 witness: the exact-bounds comparison on the entry "80-80". -/
theorem allow_rule_exact_bounds_witness :
    portRangeEntryMatch (String.mk (['8', '0'] ++ '-' :: ['8', '0'])) (ruleOpenTCP 80 80) =
      ((String.mk ['8', '0'] == goItoa (ruleOpenTCP 80 80).portRangeMin) &&
       (String.mk ['8', '0'] == goItoa (ruleOpenTCP 80 80).portRangeMax)) :=
  allow_rule_exact_bounds.2.1 ['8', '0'] ['8', '0'] (ruleOpenTCP 80 80)
    (by decide) (by decide)

/-- C3: the exposure scan computes exactly the predicate "some port
carries the group's id and either some floating IP is bound to that
port or one of its fixed IPs classifies as public"; a group with no
attached port is never exposed and yields no finding, regardless of its
rules. -/
theorem exposure_characterization (cfg : List CfgRule) (projects : List Project)
    (sg : SecGroup) (ports : List Port) (fips : List FloatingIP) (allowed : List String)
    (acc : List Attachment) :
    (portsScan sg.id fips ports = .ok (exposedBool sg.id ports fips)) ∧
    (ports.all (fun p => !(p.securityGroups.any (fun s => s == sg.id))) = true →
      isFullOpen cfg projects sg ports fips allowed acc = .ok (false, acc)) := by
  refine ⟨portsScan_eq sg.id fips ports, ?_⟩
  intro h
  have hexp : exposedBool sg.id ports fips = false := by
    unfold exposedBool
    rw [List.any_eq_false]
    intro p hp
    have hno := List.all_eq_true.mp h p hp
    simp only [Bool.not_eq_true'] at hno
    simp [hno]
  rw [isFullOpen_char]
  unfold openSgFlag openSgDelta
  rw [hexp]
  simp

/-- C3 witness: a group whose only inventory port belongs to another
group is not exposed. -/
theorem exposure_characterization_witness :
    isFullOpen [] [] sgWeb [portOther] [] [] [] = .ok (false, []) :=
  (exposure_characterization [] [] sgWeb [portOther] [] [] []).2 (by decide)

/-- C4 counterexample: the string "not-an-ip" cannot be parsed as an IP
address, yet the classification step returns the verdict
`(not private, no error)` instead of failing with an error, and
exposure evaluation of a group whose port carries only this address
succeeds — the group is even reported exposed with a finding — instead
of propagating a classification error. -/
theorem unparseable_ip_no_error_cex :
    goParseIP "not-an-ip" = GoIP.nil ∧
    isPrivateIP (goParseIP "not-an-ip") = (false, none) ∧
    isFullOpen [] [] sgWeb [portBadIP] [] [] [] =
      .ok (true, [openAccessAttachment [] sgWeb (ruleOpenTCP 22 22)]) := by
  refine ⟨by decide, by decide, by decide⟩

/-- C4 (amended): an address string that cannot be parsed yields the
nil address; the classifier returns the verdict "not private" with no
error (there is no InvalidAddress failure), and the fixed-IP scan of
exposure evaluation treats such an address as public: any fixed-IP list
containing an unparseable address yields exposure, not an error. -/
theorem unparseable_ip_public_verdict :
    (∀ s : String, goParseIP s = GoIP.nil → isPrivateIP (goParseIP s) = (false, none)) ∧
    (∀ (ips : List FixedIP) (ip : FixedIP), ip ∈ ips → goParseIP ip.ipAddress = GoIP.nil →
      fixedIPsPublic ips = .ok true) := by
  constructor
  · intro s hs
    rw [hs]
    decide
  · intro ips ip hm hnil
    rw [fixedIPsPublic_eq]
    have hip : (!(isPrivateIP (goParseIP ip.ipAddress)).1) = true := by
      rw [hnil]; decide
    have hany : (ips.any fun ip => !(isPrivateIP (goParseIP ip.ipAddress)).1) = true :=
      List.any_eq_true.mpr ⟨ip, hm, hip⟩
    rw [hany]

/-- C4 witness: the amended behavior at the concrete string
"not-an-ip". -/
theorem unparseable_ip_public_verdict_witness :
    isPrivateIP (goParseIP "not-an-ip") = (false, none) ∧
    fixedIPsPublic [{ ipAddress := "not-an-ip" }] = .ok true :=
  ⟨unparseable_ip_public_verdict.1 "not-an-ip" (by decide),
   unparseable_ip_public_verdict.2 [{ ipAddress := "not-an-ip" }] { ipAddress := "not-an-ip" }
     (List.mem_singleton.mpr rfl) (by decide)⟩

/-- C5 counterexample: with an empty project set the tenant lookup
misses; the policy-match finding then displays the empty string as the
tenant label — not the tenant id "t1" — refuting that the id string
becomes the displayed label in every finding kind. -/
theorem policy_label_empty_cex :
    matchPolicy (fun _ => true) [] sgPlain [] = (true, [policyAttachment [] sgPlain]) ∧
    (policyAttachment [] sgPlain).fields[1]? =
      some { title := "Tenant", value := "", short := true } ∧
    sgPlain.tenantID = "t1" ∧
    (policyAttachment [] sgPlain).fields[1]? ≠
      some { title := "Tenant", value := sgPlain.tenantID, short := true } := by
  refine ⟨rfl, by decide, rfl, by decide⟩

/-- C5 (amended): tenant resolution returns the name of the first
project whose id matches and errs otherwise; on a miss the raw id
becomes the label of open-access findings while policy-match findings
display the empty string; the miss is propagated by neither evaluator:
`isFullOpen` always returns successfully and `matchPolicy` always
returns the verdict decided by the predicate alone. -/
theorem tenant_resolution_nonfatal :
    (∀ (id : String) (ps : List Project),
      getProjectNameFromID id ps =
        match ps.find? (fun p => p.id == id) with
        | some p => .ok p.name
        | none => .error ("Not found project: " ++ id)) ∧
    (∀ (projects : List Project) (sg : SecGroup),
      projects.find? (fun p => p.id == sg.tenantID) = none →
      resolveLabelOpen projects sg = sg.tenantID ∧ resolveLabelPolicy projects sg = "") ∧
    (∀ (cfg : List CfgRule) (projects : List Project) (sg : SecGroup) (ports : List Port)
       (fips : List FloatingIP) (allowed : List String) (acc : List Attachment),
      ∃ r, isFullOpen cfg projects sg ports fips allowed acc = .ok r) ∧
    (∀ (pred : SecGroup → Bool) (projects : List Project) (sg : SecGroup)
       (acc : List Attachment), (matchPolicy pred projects sg acc).1 = pred sg) := by
  have hchar : ∀ (id : String) (ps : List Project),
      getProjectNameFromID id ps =
        match ps.find? (fun p => p.id == id) with
        | some p => .ok p.name
        | none => .error ("Not found project: " ++ id) := by
    intro id ps
    induction ps with
    | nil => rfl
    | cons p rest ih =>
      unfold getProjectNameFromID
      cases h : p.id == id with
      | true => simp [List.find?, h]
      | false => simp [List.find?, h, ih]
  refine ⟨hchar, ?_, ?_, ?_⟩
  · intro projects sg hmiss
    constructor
    · unfold resolveLabelOpen
      rw [hchar, hmiss]
    · unfold resolveLabelPolicy
      rw [hchar, hmiss]
  · intro cfg projects sg ports fips allowed acc
    exact ⟨_, isFullOpen_char cfg projects sg ports fips allowed acc⟩
  · intro pred projects sg acc
    unfold matchPolicy
    cases h : pred sg <;> simp [h]

/-- C5 witness: the miss behavior at an empty project set. -/
theorem tenant_resolution_nonfatal_witness :
    resolveLabelOpen [] sgPlain = sgPlain.tenantID ∧ resolveLabelPolicy [] sgPlain = "" :=
  tenant_resolution_nonfatal.2.1 [] sgPlain rfl

/-- C6: every address in 10.0.0.0/8, 172.16.0.0/12 or 192.168.0.0/16,
and every loopback, link-local-unicast or link-local-multicast address,
is classified private; 8.8.8.8 and 1.1.1.1 are classified public. -/
theorem private_ip_ranges :
    (∀ b c d : Nat, isPrivateIP (GoIP.v4 10 b c d) = (true, none)) ∧
    (∀ b c d : Nat, 16 ≤ b → b ≤ 31 → isPrivateIP (GoIP.v4 172 b c d) = (true, none)) ∧
    (∀ c d : Nat, isPrivateIP (GoIP.v4 192 168 c d) = (true, none)) ∧
    (∀ ip : GoIP,
      (goIsLoopback ip || goIsLinkLocalUnicast ip || goIsLinkLocalMulticast ip) = true →
      isPrivateIP ip = (true, none)) ∧
    isPrivateIP (GoIP.v4 8 8 8 8) = (false, none) ∧
    isPrivateIP (GoIP.v4 1 1 1 1) = (false, none) := by
  refine ⟨?_, ?_, ?_, ?_, by decide, by decide⟩
  · intro b c d
    rw [isPrivateIP_eq]
    simp [goIsLoopback, goIsLinkLocalUnicast, goIsLinkLocalMulticast, goTo4,
      anyBlockContains, ipnetContains, Nat.and_zero]
    left
    decide
  · intro b c d h1 h2
    have hb : b &&& 240 = 16 := by interval_cases b <;> decide
    rw [isPrivateIP_eq]
    simp [goIsLoopback, goIsLinkLocalUnicast, goIsLinkLocalMulticast, goTo4,
      anyBlockContains, ipnetContains, Nat.and_zero, hb]
    right
    left
    decide
  · intro c d
    rw [isPrivateIP_eq]
    simp [goIsLoopback, goIsLinkLocalUnicast, goIsLinkLocalMulticast, goTo4,
      anyBlockContains, ipnetContains, Nat.and_zero]
    right
    right
    exact ⟨by decide, by decide⟩
  · intro ip h
    unfold isPrivateIP
    simp [h]

/-- C6 witness: 172.17.3.4 and the loopback 127.0.0.1 are private. -/
theorem private_ip_ranges_witness :
    isPrivateIP (GoIP.v4 172 17 3 4) = (true, none) ∧
    isPrivateIP (GoIP.v4 127 0 0 1) = (true, none) :=
  ⟨private_ip_ranges.2.1 17 3 4 (by decide) (by decide),
   private_ip_ranges.2.2.2.1 (GoIP.v4 127 0 0 1) (by decide)⟩

/-- C7: for each policy the engine is queried exactly once per
non-exempt group, in inventory order — never for a group whose id is in
the dynamic allow list — and policy findings arise only from non-exempt
matching groups; every policy of a run logs the same non-exempt id
list. -/
theorem policy_engine_once_per_nonexempt :
    (∀ (pred : SecGroup → Bool) (projects : List Project) (allowed : List String)
       (groups : List SecGroup) (flag : Bool) (acc : List Attachment) (log : List String),
      policyScan pred projects allowed groups flag acc log =
        (flag || (nonExempt allowed groups).any pred,
         acc ++ policyDelta pred projects allowed groups,
         log ++ (nonExempt allowed groups).map (fun sg => sg.id))) ∧
    (∀ (projects : List Project) (allowed : List String) (groups : List SecGroup)
       (dryRun : Bool) (preds : List (SecGroup → Bool)) (acc : List Attachment),
      (runPolicies projects allowed groups dryRun preds acc).2.2 =
        preds.map (fun _ => (nonExempt allowed groups).map (fun sg => sg.id))) :=
  ⟨fun pred projects allowed groups flag acc log =>
      policyScan_eq pred projects allowed groups flag acc log,
   fun projects allowed groups dryRun preds acc =>
      runPolicies_logs projects allowed groups dryRun preds acc⟩

/-- C8: the open-access evaluator is deterministic over an immutable
snapshot: two passes over the same groups, ports, floating IPs, allow
rules and dynamic allow list — from any two accumulator states —
report the same summary flag and emit the same ordered finding batch. -/
theorem open_access_pass_deterministic (cfg : List CfgRule) (projects : List Project)
    (ports : List Port) (fips : List FloatingIP) (allowed : List String)
    (groups : List SecGroup) (acc acc2 : List Attachment) :
    ∃ b fs,
      openAccessPass cfg projects ports fips allowed groups false acc = .ok (b, acc ++ fs) ∧
      openAccessPass cfg projects ports fips allowed groups false acc2 = .ok (b, acc2 ++ fs) :=
  ⟨false || groups.any (fun sg => openSgFlag cfg allowed sg ports fips),
   (groups.map (fun sg => openSgDelta cfg projects allowed sg ports fips)).flatten,
   openAccessPass_eq cfg projects ports fips allowed groups false acc,
   openAccessPass_eq cfg projects ports fips allowed groups false acc2⟩

/-- C9: `checker.Attachments` is reset exactly once per run, between
the open-access pass and the first policy (the policy loop starts from
the empty accumulator whatever the open-access pass produced), and is
never cleared between successive policies: the batch posted for the
policy at index k is the concatenation of the per-policy findings of
policies 0..k. -/
theorem policy_batches_accumulate :
    (∀ (cfg : List CfgRule) (preds : List (SecGroup → Bool)) (projects : List Project)
       (ports : List Port) (fips : List FloatingIP) (allowed : List String)
       (groups : List SecGroup) (dryRun : Bool) (initAcc : List Attachment),
      runModel cfg preds projects ports fips allowed groups dryRun initAcc =
        (openAccessPass cfg projects ports fips allowed groups false initAcc).map (fun r =>
          { openBatch := if r.1 && !dryRun then some r.2 else none,
            policyBatches := (runPolicies projects allowed groups dryRun preds []).1,
            finalAttachments := (runPolicies projects allowed groups dryRun preds []).2.1,
            policyQueryLogs := (runPolicies projects allowed groups dryRun preds []).2.2 })) ∧
    (∀ (projects : List Project) (allowed : List String) (groups : List SecGroup)
       (dryRun : Bool) (preds : List (SecGroup → Bool)) (acc : List Attachment)
       (k : Nat) (pred : SecGroup → Bool),
      preds[k]? = some pred →
      (runPolicies projects allowed groups dryRun preds acc).1[k]? =
        some (if (nonExempt allowed groups).any pred && !dryRun
              then some (acc ++ ((preds.take (k + 1)).map
                     (fun p => policyDelta p projects allowed groups)).flatten)
              else none)) :=
  ⟨fun cfg preds projects ports fips allowed groups dryRun initAcc =>
      runModel_eq cfg preds projects ports fips allowed groups dryRun initAcc,
   fun projects allowed groups dryRun preds acc k pred h =>
      runPolicies_batches projects allowed groups dryRun preds acc k pred h⟩

/-- C9 witness: with two always-matching policies over one group, the
second policy's batch is the flattened deltas of both policies. -/
theorem policy_batches_accumulate_witness :
    (runPolicies [] [] [sgPlain] false [predAll, predAll] []).1[1]? =
      some (if (nonExempt [] [sgPlain]).any predAll && !false
            then some ([] ++ (([predAll, predAll].take 2).map
                   (fun p => policyDelta p [] [] [sgPlain])).flatten)
            else none) :=
  policy_batches_accumulate.2 [] [] [sgPlain] false [predAll, predAll] [] 1 predAll rfl

/-- C10: `isPrivateIP` returns a boolean verdict with a nil error for
every input — its error branch is unreachable because all three
hard-coded CIDR constants parse — the nil address produced by a parse
failure is classified not private, and the fixed-IP exposure scan
therefore treats an unparseable address as public. -/
theorem is_private_ip_total_nil_public :
    (∀ ip : GoIP, (isPrivateIP ip).2 = none) ∧
    buildBlocks privateCIDRList =
      .ok [⟨⟨10, 0, 0, 0⟩, ⟨255, 0, 0, 0⟩⟩,
           ⟨⟨172, 16, 0, 0⟩, ⟨255, 240, 0, 0⟩⟩,
           ⟨⟨192, 168, 0, 0⟩, ⟨255, 255, 0, 0⟩⟩] ∧
    isPrivateIP GoIP.nil = (false, none) ∧
    goParseIP "256.1.2.3" = GoIP.nil ∧
    fixedIPsPublic [{ ipAddress := "256.1.2.3" }] = .ok true :=
  ⟨isPrivateIP_snd, buildBlocks_eq, by decide, by decide, by decide⟩
